import Mathlib

/-!
# Kanban board (`js/kanban.js`): task store, container classifier, transfer engine

A shallow embedding of the state-carrying part of `js/kanban.js`.

* Task objects live on a heap and are named by references, because the program shares one
  object between `allTasks` and the container lists and updates it in place
  (`allTasks[taskIndex].inWhichContainer = ...`), and because `Array.prototype.includes`
  compares objects by identity while `findIndex(task => task.id === ...)` compares ids.
* The four global container lists are four distinct arrays; an array that is none of them is a
  `foreign` array. `null` is `none`.
* An operation returns the store it leaves behind together with the exception that aborted it,
  if any (for an `async` function: the rejection of its promise).
* DOM reads and writes (`document.getElementById`, `classList`, `innerHTML`, `console.error`)
  are not part of the store and are left out of the store operations; where the control flow
  depends on an element's class list, the class list is an argument. The functions
  `applyLineThroughAndCheckbox` and `onDrop` run on a `Document`: the list of elements with
  their id, class list, checkbox state and the two style properties that `onDrop` resets.
-/

namespace Kanban

/-- Reference to a task object on the heap. -/
abbrev Ref := Nat

/-- A JavaScript array together with its object identity, for the one field whose arrays the
program compares with `===`. -/
structure JSArray (α : Type) where
  addr : Nat
  items : List α
deriving DecidableEq, Repr

/-- Task object, with the properties that `kanban.js` reads or writes. A property that the
program guards against being `undefined` is an `Option`. -/
structure Task where
  id : String
  inWhichContainer : String
  title : String
  description_text : String
  task_category : String
  createdAt : String
  priority : List String
  categoryColors : List String
  assignedToValues : Option (List String)
  assignedToColors : List String
  subtasks : Option (List String)
  subtasksId : Option (JSArray String)
  subtasksStatus : Option (List Bool)
  progressBarId : String
deriving DecidableEq, Repr

/-- JavaScript values as far as `createSubTasksHTML` tests them for truthiness. -/
inductive JSVal where
  | undefined
  | bool (b : Bool)
  | str (s : String)
  | object
deriving DecidableEq, Repr

/-- Truthiness of a value (`v ? a : b`). -/
def JSVal.truthy : JSVal → Bool
  | .undefined => false
  | .bool b => b
  | .str s => s != ""
  | .object => true

/-- Property key: an identifier name (`task.id`) or an array index (`x[0]`). -/
inductive PropKey where
  | named (name : String)
  | index (i : Nat)
deriving DecidableEq, Repr

/-- Property read `task[key]`. The own properties of a task object are the named properties
of `Task`; the members it inherits from `Object.prototype` (`toString`, `constructor`,
`hasOwnProperty` and the rest) read as functions or objects, which are truthy; any other key,
every array index among them, reads as `undefined`. -/
def Task.getProp (t : Task) : PropKey → JSVal
  | .named "id" => .str t.id
  | .named "inWhichContainer" => .str t.inWhichContainer
  | .named "title" => .str t.title
  | .named "description_text" => .str t.description_text
  | .named "task_category" => .str t.task_category
  | .named "createdAt" => .str t.createdAt
  | .named "priority" => .object
  | .named "categoryColors" => .object
  | .named "assignedToValues" => if t.assignedToValues.isSome then .object else .undefined
  | .named "assignedToColors" => .object
  | .named "subtasks" => if t.subtasks.isSome then .object else .undefined
  | .named "subtasksId" => if t.subtasksId.isSome then .object else .undefined
  | .named "subtasksStatus" => if t.subtasksStatus.isSome then .object else .undefined
  | .named "progressBarId" => .str t.progressBarId
  | .named "constructor" => .object
  | .named "hasOwnProperty" => .object
  | .named "isPrototypeOf" => .object
  | .named "propertyIsEnumerable" => .object
  | .named "toLocaleString" => .object
  | .named "toString" => .object
  | .named "valueOf" => .object
  | .named "__proto__" => .object
  | .named "__defineGetter__" => .object
  | .named "__defineSetter__" => .object
  | .named "__lookupGetter__" => .object
  | .named "__lookupSetter__" => .object
  | .named _ => .undefined
  | .index _ => .undefined

/-- An array the program can hold a reference to: one of the four global container lists, or
any other array. -/
inductive ArrayRef where
  | tasksToDo
  | tasksInProgress
  | tasksAwaitFeedback
  | tasksDone
  | foreign (n : Nat)
deriving DecidableEq, Repr

/-- The global state: `allTasks`, the four container lists, `currentShowedTaskId`
(`undefined` is `none`), the task objects and the arrays that are none of the four. -/
structure Store where
  heap : Ref → Task
  allTasks : List Ref
  tasksToDo : List Ref
  tasksInProgress : List Ref
  tasksAwaitFeedback : List Ref
  tasksDone : List Ref
  foreign : Nat → List Ref
  currentShowedTaskId : Option String

/-- Contents of an array. -/
def Store.read (s : Store) : ArrayRef → List Ref
  | .tasksToDo => s.tasksToDo
  | .tasksInProgress => s.tasksInProgress
  | .tasksAwaitFeedback => s.tasksAwaitFeedback
  | .tasksDone => s.tasksDone
  | .foreign n => s.foreign n

/-- In-place replacement of the contents of an array. -/
def Store.write (s : Store) (a : ArrayRef) (l : List Ref) : Store :=
  match a with
  | .tasksToDo => { s with tasksToDo := l }
  | .tasksInProgress => { s with tasksInProgress := l }
  | .tasksAwaitFeedback => { s with tasksAwaitFeedback := l }
  | .tasksDone => { s with tasksDone := l }
  | .foreign n => { s with foreign := Function.update s.foreign n l }

/-- Assignment `task.inWhichContainer = key` on the object behind `r`. -/
def Store.setContainer (s : Store) (r : Ref) (key : String) : Store :=
  { s with heap := Function.update s.heap r { s.heap r with inWhichContainer := key } }

/-- Result of running an operation: the store it leaves and the uncaught exception, if any. -/
structure Outcome where
  store : Store
  thrown : Option String

/-- Modelled from the spec: `saveTasks` is not defined in `kanban.js`. By spec 4.5 (`saveAll`)
and 7 it serialises the store to the external persistence service and a persistence failure
does not roll back the in-memory mutation, so it leaves the store as it is. -/
def saveTasks (s : Store) : Store := s

/-- Modelled from the spec: `saveTasksCategory` is not defined in `kanban.js`. By spec 4.5 it
serialises the four container lists to the external persistence service and leaves the store
as it is. -/
def saveTasksCategory (s : Store) : Store := s

/-- Modelled from the spec: `showTasks` is not defined in `kanban.js`. By spec 4.3 and 6 it is
the render-refresh signal to the rendering collaborator, a consumer of the store that holds no
state of its own; it leaves the store as it is. -/
def showTasks (s : Store) : Store := s

/-- The function `determineContainerKey(array)`: a chain of identity comparisons with the four
global lists. -/
def determineContainerKey (array : Option ArrayRef) : String :=
  if array = some ArrayRef.tasksToDo then "for-To-Do-Container"
  else if array = some ArrayRef.tasksInProgress then "in-Progress-Container"
  else if array = some ArrayRef.tasksAwaitFeedback then "for-Await-Feedback-Container"
  else if array = some ArrayRef.tasksDone then "for-Done-Container"
  else ""

/-- The function `getTargetArrayFromContainerId(containerId, tasksToDo, tasksInProgress,
tasksAwaitFeedback, tasksDone)`: a `switch` over the container id returning one of its four
array arguments, `null` by default. -/
def getTargetArrayFromContainerId {α : Type} (containerId : String)
    (tasksToDo tasksInProgress tasksAwaitFeedback tasksDone : α) : Option α :=
  if containerId = "target-to-do-table" then some tasksToDo
  else if containerId = "target-in-progress-table" then some tasksInProgress
  else if containerId = "target-await-feedback-table" then some tasksAwaitFeedback
  else if containerId = "target-done-table" then some tasksDone
  else none

/-- The function `moveTaskToContainer(taskId, targetArray)`. The task id can be `undefined`
(`none`), which is equal to no task's id. -/
def moveTaskToContainer (s : Store) (taskId : Option String) (targetArray : Option ArrayRef) :
    Outcome :=
  match s.allTasks.findIdx? (fun task => some (s.heap task).id == taskId) with
  | some taskIndex =>
    match s.allTasks[taskIndex]? with
    | some task =>
      let s1 := s.setContainer task (determineContainerKey targetArray)
      match targetArray with
      | some target =>
        let s2 := s1.write target (s1.read target ++ [task])
        ⟨showTasks (saveTasksCategory (saveTasks s2)), none⟩
      | none => ⟨s1, some "TypeError: Cannot read properties of null (reading push)"⟩
    | none => ⟨s, some "TypeError: Cannot set properties of undefined"⟩
  | none => ⟨s, none⟩

/-- The target list of a drop as `onDrop` resolves it: `getTargetArrayFromContainerId` with the
four global lists passed as arguments. -/
def resolveList (containerId : String) : Option ArrayRef :=
  getTargetArrayFromContainerId containerId ArrayRef.tasksToDo ArrayRef.tasksInProgress
    ArrayRef.tasksAwaitFeedback ArrayRef.tasksDone

/-- The transfer that `onDrop(event)` starts: resolve the target list from the id of the
container under the drop point and call `moveTaskToContainer`. The exception of the outcome is
the rejection of the promise of that call. -/
def dropTransfer (s : Store) (taskId : Option String) (targetContainerId : String) : Outcome :=
  moveTaskToContainer s taskId (resolveList targetContainerId)

/-- The function `clearAllTasks()`: `allTasks = []; await saveTasks();`. -/
def clearAllTasks (s : Store) : Outcome :=
  ⟨saveTasks { s with allTasks := [] }, none⟩

/-- Modelled from the spec: `clearSortTasks` is not defined in `kanban.js`. It is the clearing
half of spec 4.1 `rebuildPartition` (clearing and refilling the four container lists). -/
def clearSortTasks (s : Store) : Store :=
  { s with tasksToDo := [], tasksInProgress := [], tasksAwaitFeedback := [], tasksDone := [] }

/-- Modelled from the spec: one step of the refilling half of `rebuildPartition`, appending a
task to the container list whose key equals the task's `inWhichContainer`. -/
def sortTaskIntoArray (s : Store) (task : Ref) : Store :=
  if (s.heap task).inWhichContainer = determineContainerKey (some ArrayRef.tasksToDo) then
    { s with tasksToDo := s.tasksToDo ++ [task] }
  else if (s.heap task).inWhichContainer
      = determineContainerKey (some ArrayRef.tasksInProgress) then
    { s with tasksInProgress := s.tasksInProgress ++ [task] }
  else if (s.heap task).inWhichContainer
      = determineContainerKey (some ArrayRef.tasksAwaitFeedback) then
    { s with tasksAwaitFeedback := s.tasksAwaitFeedback ++ [task] }
  else if (s.heap task).inWhichContainer = determineContainerKey (some ArrayRef.tasksDone) then
    { s with tasksDone := s.tasksDone ++ [task] }
  else s

/-- Modelled from the spec: `sortTaskIntoArrays` is not defined in `kanban.js`. It is the
refilling half of spec 4.1 `rebuildPartition`: the container lists are re-derived from the full
collection by each task's container key, in the order of the collection. -/
def sortTaskIntoArrays (s : Store) : Store :=
  s.allTasks.foldl sortTaskIntoArray s

/-- The function `deleteTask(taskId)`, without the removal of the DOM element and
`hideOverlay()`. -/
def deleteTask (s : Store) (taskId : String) : Outcome :=
  let s1 : Store :=
    match s.allTasks.findIdx? (fun task => (s.heap task).id == taskId) with
    | some taskIndex => { s with allTasks := s.allTasks.eraseIdx taskIndex }
    | none => s
  let s2 := sortTaskIntoArrays (clearSortTasks s1)
  ⟨saveTasks (saveTasksCategory s2), none⟩

/-- The function `moveTaskToCategory(taskArray, newArray)`; it reads the global
`currentShowedTaskId`. -/
def moveTaskToCategory (s : Store) (taskArray newArray : Option ArrayRef) : Outcome :=
  match taskArray, newArray with
  | some source, some target =>
    match (s.read source).findIdx?
        (fun task => some (s.heap task).id == s.currentShowedTaskId) with
    | some taskIndex =>
      match (s.read source)[taskIndex]? with
      | some task =>
        let s1 := s.write source ((s.read source).eraseIdx taskIndex)
        let s2 := s1.setContainer task (determineContainerKey newArray)
        let s3 := s2.write target (s2.read target ++ [task])
        ⟨showTasks (saveTasksCategory (saveTasks s3)), none⟩
      | none => ⟨s.write source ((s.read source).eraseIdx taskIndex),
          some "TypeError: Cannot set properties of undefined"⟩
    | none => ⟨s, none⟩
  | _, _ => ⟨s, none⟩

/-- The function `handleMobileTaskCategoryClick(clickedElement, taskId, taskArray)`; the
clicked element is given by its class list. -/
def handleMobileTaskCategoryClick (s : Store) (classList : List String) (taskId : String)
    (taskArray : Option ArrayRef) : Outcome :=
  let s1 : Store := { s with currentShowedTaskId := some taskId }
  if classList.contains "to-do-category" then
    moveTaskToCategory s1 taskArray (some ArrayRef.tasksToDo)
  else if classList.contains "in-progress-category" then
    moveTaskToCategory s1 taskArray (some ArrayRef.tasksInProgress)
  else if classList.contains "await-feedback-category" then
    moveTaskToCategory s1 taskArray (some ArrayRef.tasksAwaitFeedback)
  else if classList.contains "done-category" then
    moveTaskToCategory s1 taskArray (some ArrayRef.tasksDone)
  else ⟨s1, none⟩

/-- The function `findTaskArray(taskId)`; `includes` compares task objects by identity. -/
def findTaskArray (s : Store) (taskId : String) : Option ArrayRef :=
  match s.allTasks.find? (fun task => (s.heap task).id == taskId) with
  | some task =>
    if s.tasksToDo.contains task then some ArrayRef.tasksToDo
    else if s.tasksInProgress.contains task then some ArrayRef.tasksInProgress
    else if s.tasksAwaitFeedback.contains task then some ArrayRef.tasksAwaitFeedback
    else if s.tasksDone.contains task then some ArrayRef.tasksDone
    else none
  | none => none

/-- Identity comparison `a === b` of two `subtasksId` values (`undefined === undefined` holds,
two arrays are the same when they are the same object). -/
def sameArray (a b : Option (JSArray String)) : Bool :=
  match a, b with
  | none, none => true
  | some x, some y => x.addr == y.addr
  | _, _ => false

/-- One `<li>` of the subtask list: the interpolated parts of the template literal. -/
structure SubTaskItem where
  liId : String
  divClass : String
  text : String
deriving DecidableEq, Repr

/-- The template literal of `createSubTasksHTML` for one subtask. -/
def SubTaskItem.html (e : SubTaskItem) : String :=
  "<li id=\"" ++ e.liId ++ "\" class=\"subTaskAlignment\"><div class=\"" ++ e.divClass
    ++ "\">" ++ e.text ++ "</div></li>"

/-- Body of the `forEach` callback of `createSubTasksHTML` for `(subTask, index)`:
`taskSubtasksId` is the task object found by `allTasks.find`, and the status is read as
`taskSubtasksId[index]`, a property of the task object. An index past the end of `subTasksId`
interpolates as `undefined`. -/
def subTaskItem (taskSubtasksId : Option Task) (subTasksId : JSArray String) (index : Nat)
    (subTask : String) : SubTaskItem :=
  let subtaskStatus : JSVal :=
    match taskSubtasksId with
    | some task => task.getProp (PropKey.index index)
    | none => JSVal.bool false
  { liId := (subTasksId.items[index]?).getD "undefined"
    divClass := if subtaskStatus.truthy then "lineThrough" else ""
    text := subTask }

/-- The list items that `createSubTasksHTML(subTasks, subTasksId)` emits, in order. -/
def createSubTasksItems (s : Store) (subTasks : Option (List String))
    (subTasksId : Option (JSArray String)) : List SubTaskItem :=
  let taskSubtasksId : Option Task :=
    (s.allTasks.find? (fun task => sameArray (s.heap task).subtasksId subTasksId)).map s.heap
  match subTasks, subTasksId with
  | some subTasks, some subTasksId =>
    subTasks.enum.map (fun p => subTaskItem taskSubtasksId subTasksId p.1 p.2)
  | _, _ => []

/-- The function `createSubTasksHTML(subTasks, subTasksId)`. -/
def createSubTasksHTML (s : Store) (subTasks : Option (List String))
    (subTasksId : Option (JSArray String)) : String :=
  match subTasks, subTasksId with
  | some subTasksArr, some _ =>
    if subTasksArr.length > 0 then
      "<ul class=\"edit-subTask\">"
        ++ String.join ((createSubTasksItems s subTasks subTasksId).map SubTaskItem.html)
        ++ "</ul>"
    else ""
  | _, _ => ""

/-- The subtask part of `displayTaskOverview(taskId)`: the task is looked up by id and its
`subtasks` and `subtasksId` are handed to `createSubTasksHTML`; reading a property of a task
that was not found throws. -/
def displayTaskOverview (s : Store) (taskId : String) : Except String String :=
  match s.allTasks.find? (fun task => (s.heap task).id == taskId) with
  | some task =>
    Except.ok (createSubTasksHTML s (s.heap task).subtasks (s.heap task).subtasksId)
  | none => Except.error "TypeError: Cannot read properties of undefined"

/-- The function `showTasksInOverview(taskId, event)`; the clicked element `event.target` is
given by its class list. The last branch opens the overlay and calls `displayTaskOverview`,
which changes no part of the store. -/
def showTasksInOverview (s : Store) (classList : List String) (taskId : String) : Outcome :=
  let taskArray := findTaskArray s taskId
  if classList.contains "navigate-tasks-mobile" then ⟨s, none⟩
  else if classList.contains "mobile-taskcategory" then
    handleMobileTaskCategoryClick s classList taskId taskArray
  else if !classList.contains "navigate-tasks-mobile"
      || !classList.contains "mobile-taskcategory" then
    match displayTaskOverview s taskId with
    | Except.ok _ => ⟨s, none⟩
    | Except.error e => ⟨s, some e⟩
  else ⟨s, none⟩

/-- The class that marks the category button of a container list. -/
def categoryClass : ArrayRef → String
  | .tasksToDo => "to-do-category"
  | .tasksInProgress => "in-progress-category"
  | .tasksAwaitFeedback => "await-feedback-category"
  | .tasksDone => "done-category"
  | .foreign _ => ""

/-- The category-button transfer of the task with id `taskId` to a container list: a click,
handled by `showTasksInOverview`, on the `mobile-taskcategory` button of that list. -/
def categoryButtonTransfer (s : Store) (taskId : String) (target : ArrayRef) : Outcome :=
  showTasksInOverview s ["mobile-taskcategory", categoryClass target] taskId

/-! ### Predicates of the data model -/

/-- The four container lists in the order in which the program scans them. -/
def containerLists : List ArrayRef :=
  [ArrayRef.tasksToDo, ArrayRef.tasksInProgress, ArrayRef.tasksAwaitFeedback,
    ArrayRef.tasksDone]

/-- Number of occurrences of a task object in the four container lists together. -/
def occurrences (s : Store) (task : Ref) : Nat :=
  s.tasksToDo.count task + s.tasksInProgress.count task + s.tasksAwaitFeedback.count task
    + s.tasksDone.count task

/-- Task ids are unique within `allTasks`: no two positions hold tasks with the same id. -/
def UniqueIds (s : Store) : Prop :=
  (s.allTasks.map (fun task => (s.heap task).id)).Nodup

/-- All task objects reachable from the store: `allTasks` and the four container lists. -/
def storeRefs (s : Store) : List Ref :=
  s.allTasks ++ s.tasksToDo ++ s.tasksInProgress ++ s.tasksAwaitFeedback ++ s.tasksDone

/-- Task ids are unique across the entire task store: two task objects of the store with the
same id are the same object. -/
def StoreUniqueIds (s : Store) : Prop :=
  ∀ a ∈ storeRefs s, ∀ b ∈ storeRefs s, (s.heap a).id = (s.heap b).id → a = b

/-- Every task of `allTasks` occurs exactly once in exactly one of the four lists. -/
def Partitioned (s : Store) : Prop :=
  ∀ task ∈ s.allTasks, occurrences s task = 1

instance (s : Store) : Decidable (UniqueIds s) := by unfold UniqueIds; infer_instance
instance (s : Store) : Decidable (StoreUniqueIds s) := by unfold StoreUniqueIds; infer_instance
instance (s : Store) : Decidable (Partitioned s) := by unfold Partitioned; infer_instance

/-! ### Concrete boards -/

/-- A task with the given id, container key and subtask data, all other properties blank. -/
def mkTask (id key : String) (subtasks : Option (List String))
    (subtasksId : Option (JSArray String)) (subtasksStatus : Option (List Bool)) : Task :=
  { id := id, inWhichContainer := key, title := "", description_text := "",
    task_category := "", createdAt := "", priority := [], categoryColors := [],
    assignedToValues := none, assignedToColors := [], subtasks := subtasks,
    subtasksId := subtasksId, subtasksStatus := subtasksStatus, progressBarId := "" }

/-- Board with two tasks: task `"1"` (object 0) in To-Do, task `"2"` (object 1) in Done. Task
`"1"` has one subtask `a` with element id `s1`, marked completed. -/
def board : Store :=
  { heap := fun r =>
      if r = 0 then
        mkTask "1" "for-To-Do-Container" (some ["a"]) (some ⟨7, ["s1"]⟩) (some [true])
      else mkTask "2" "for-Done-Container" none none none
    allTasks := [0, 1]
    tasksToDo := [0]
    tasksInProgress := []
    tasksAwaitFeedback := []
    tasksDone := [1]
    foreign := fun _ => []
    currentShowedTaskId := none }

/-! ### The document, as far as `applyLineThroughAndCheckbox` reads and writes it -/

/-- A DOM element: its id, its class list, the `checked` state of its first descendant of
class `subtask-checkbox` (`none` when `querySelector` finds no such descendant), and the two
inline style properties that `onDrop` resets. -/
structure Element where
  id : String
  classList : List String
  checkbox : Option Bool
  backgroundColor : String := ""
  border : String := ""
deriving DecidableEq, Repr

/-- The document: its elements in document order. -/
abbrev Document := List Element

/-- The method `document.getElementById(id)`: the position of the first element with that id,
`null` when there is none and for the empty string. -/
def getElementById (doc : Document) (id : String) : Option Nat :=
  if id = "" then none else doc.findIdx? (fun e => e.id == id)

/-- In-place update of the element at a position of the document. -/
def updateElement (doc : Document) (i : Nat) (f : Element → Element) : Document :=
  match doc[i]? with
  | some e => doc.set i (f e)
  | none => doc

/-- The method `classList.add(name)`: the class list is a set of tokens. -/
def classListAdd (classList : List String) (name : String) : List String :=
  if classList.contains name then classList else classList ++ [name]

/-- The method `classList.remove(name)`. -/
def classListRemove (classList : List String) (name : String) : List String :=
  classList.filter (fun c => c != name)

/-- Result of running an operation that also writes the document. -/
structure DomOutcome where
  store : Store
  document : Document
  thrown : Option String

/-- Body of the `forEach` callback of `applyLineThroughAndCheckbox` once `subtaskId` has been
read: `document.getElementById(subtaskId)` (an `undefined` id is looked up as the string
`undefined`), the optional `querySelector`, and the guarded update of class and checkbox. -/
def applyStatusToElement (doc : Document) (subtaskId : Option String) (subtaskStatus : Bool) :
    Document :=
  match getElementById doc (subtaskId.getD "undefined") with
  | some i =>
    match doc[i]? with
    | some subtaskElement =>
      match subtaskElement.checkbox with
      | some _ =>
        doc.set i
          { subtaskElement with
            classList :=
              if subtaskStatus then classListAdd subtaskElement.classList "lineThrough"
              else classListRemove subtaskElement.classList "lineThrough"
            checkbox := some subtaskStatus }
      | none => doc
    | none => doc
  | none => doc

/-- The `forEach` over the status array of `applyLineThroughAndCheckbox`, from `index` on:
`task.subtasksId[index]` throws when `task.subtasksId` is `undefined`, and reads as `undefined`
past the end of the array. -/
def applyLineThroughLoop (subtasksId : Option (JSArray String)) :
    List Bool → Nat → Document → Document × Option String
  | [], _, doc => (doc, none)
  | subtaskStatus :: rest, index, doc =>
    match subtasksId with
    | none => (doc, some "TypeError: Cannot read properties of undefined (reading index)")
    | some ids =>
      applyLineThroughLoop subtasksId rest (index + 1)
        (applyStatusToElement doc ids.items[index]? subtaskStatus)

/-- The function `applyLineThroughAndCheckbox(currentTaskId)`. -/
def applyLineThroughAndCheckbox (s : Store) (doc : Document) (currentTaskId : String) :
    DomOutcome :=
  match s.allTasks.find? (fun task => (s.heap task).id == currentTaskId) with
  | some task =>
    let r := applyLineThroughLoop (s.heap task).subtasksId
      ((s.heap task).subtasksStatus.getD []) 0 doc
    ⟨s, r.1, r.2⟩
  | none => ⟨s, doc, none⟩

/-! ### Task id extraction in `onDrop` -/

/-- The method `str.split(separator)` for a separator of one character. -/
def split (str : String) (separator : Char) : List String :=
  (str.data.splitOn separator).map String.mk

/-- The element id of a task, `'task-' + taskId`, as `deleteTask` looks it up. -/
def taskElementId (taskId : String) : String := "task-" ++ taskId

/-- The task id that `onDrop` derives from the dragged element id:
`taskIdWithPrefix.split('-')[1]`, `undefined` when the split has one element only. -/
def onDropTaskId (taskIdWithPrefix : String) : Option String :=
  (split taskIdWithPrefix '-')[1]?

/-- The drop event as `onDrop` reads it: the id of the element that
`event.currentTarget.querySelector('.drop-container > :nth-child(2)')` finds (`none` when it
finds no element), the text of the data transfer, and the position in the document of
`event.target`. -/
structure DropEvent where
  targetContainer : Option String
  data : String
  target : Nat
deriving DecidableEq, Repr

/-- Result of `onDrop`, at the moment its promise settles: the store, the document, the
rejection of its own promise, and the rejection of the promise of the `moveTaskToContainer`
call, which `onDrop` does not await and nothing handles. -/
structure DropOutcome where
  store : Store
  document : Document
  thrown : Option String
  unhandledRejection : Option String

/-- The function `onDrop(event)`. Reading `.id` of a missing container element throws before
anything else happens. The call of `moveTaskToContainer` is not awaited: its store effect is
there when `onDrop` goes on, its rejection is not `onDrop`'s. Of the two style resets only the
first is under the `if`, so the second throws on a `null` element, and then the `drag-over`
class is not removed. -/
def onDrop (s : Store) (doc : Document) (event : DropEvent) : DropOutcome :=
  match event.targetContainer with
  | none => ⟨s, doc, some "TypeError: Cannot read properties of null (reading id)", none⟩
  | some targetContainer =>
    let taskIdWithPrefix := event.data
    let taskId := onDropTaskId taskIdWithPrefix
    let targetContainerId := targetContainer
    let targetArray := getTargetArrayFromContainerId targetContainerId ArrayRef.tasksToDo
      ArrayRef.tasksInProgress ArrayRef.tasksAwaitFeedback ArrayRef.tasksDone
    let moved := moveTaskToContainer s taskId targetArray
    match getElementById doc targetContainerId with
    | some targetContainerElement =>
      let doc1 := updateElement doc targetContainerElement
        (fun e => { e with backgroundColor := "", border := "" })
      let doc2 := updateElement doc1 event.target
        (fun e => { e with classList := classListRemove e.classList "drag-over" })
      ⟨moved.store, doc2, none, moved.thrown⟩
    | none =>
      ⟨moved.store, doc, some "TypeError: Cannot read properties of null (reading style)",
        moved.thrown⟩

/-- Board with one task `"3"` whose `subtasksStatus` is `[true]` and whose `subtasksId` is
missing. -/
def boardMissingSubtasksId : Store :=
  { heap := fun _ => mkTask "3" "for-To-Do-Container" (some ["a"]) none (some [true])
    allTasks := [0]
    tasksToDo := [0]
    tasksInProgress := []
    tasksAwaitFeedback := []
    tasksDone := []
    foreign := fun _ => []
    currentShowedTaskId := none }

/-- Document with the list item `s1` of a subtask and its checkbox, unchecked. -/
def subtaskDocument : Document :=
  [{ id := "s1", classList := ["subTaskAlignment"], checkbox := some false }]

/-- Board with task `"a"` (object 0) and task `"a-b"` (object 1), both in To-Do. -/
def dashBoard : Store :=
  { heap := fun r =>
      if r = 0 then mkTask "a" "for-To-Do-Container" none none none
      else mkTask "a-b" "for-To-Do-Container" none none none
    allTasks := [0, 1]
    tasksToDo := [0, 1]
    tasksInProgress := []
    tasksAwaitFeedback := []
    tasksDone := []
    foreign := fun _ => []
    currentShowedTaskId := none }

/-! ## General lemmas -/

theorem findIdx?_some_of_find? {α : Type} (p : α → Bool) :
    ∀ (l : List α) (a : α), l.find? p = some a →
      ∃ i, l.findIdx? p = some i ∧ l[i]? = some a
  | [], a, h => by simp at h
  | x :: xs, a, h => by
    by_cases hx : p x
    · simp [List.find?_cons, hx] at h
      exact ⟨0, by simp [List.findIdx?_cons, hx], by simp [h]⟩
    · simp [List.find?_cons, hx] at h
      obtain ⟨i, hi, hget⟩ := findIdx?_some_of_find? p xs a h
      refine ⟨i + 1, ?_, by simpa using hget⟩
      simp [List.findIdx?_cons, hx, List.findIdx?_succ, hi]

theorem findIdx?_none_of_forall {α : Type} (p : α → Bool) (l : List α)
    (h : ∀ a ∈ l, p a = false) : l.findIdx? p = none := by
  rw [List.findIdx?_eq_none_iff]
  exact h

theorem read_write_same (s : Store) (a : ArrayRef) (l : List Ref) :
    (s.write a l).read a = l := by
  cases a <;> simp [Store.read, Store.write]

theorem read_write_other (s : Store) (a b : ArrayRef) (l : List Ref) (h : b ≠ a) :
    (s.write a l).read b = s.read b := by
  cases a <;> cases b <;> simp_all [Store.read, Store.write, Function.update]

theorem read_setContainer (s : Store) (r : Ref) (key : String) (a : ArrayRef) :
    (s.setContainer r key).read a = s.read a := by
  cases a <;> rfl

theorem eraseIdx_findIdx?_eq_filter {α β : Type} [DecidableEq β] (f : α → β) (b : β) :
    ∀ (l : List α) (i : Nat), (l.map f).Nodup → l.findIdx? (fun a => f a == b) = some i →
      l.eraseIdx i = l.filter (fun a => f a != b) ∧ (l.eraseIdx i).length + 1 = l.length
  | [], i, _, h => by simp at h
  | x :: xs, i, hnd, h => by
    rw [List.map_cons, List.nodup_cons] at hnd
    by_cases hx : f x = b
    · have hi : i = 0 := by simpa [List.findIdx?_cons, hx] using h.symm
      subst hi
      have hall : ∀ a ∈ xs, f a ≠ b := by
        intro a ha hab
        exact hnd.1 (List.mem_map.mpr ⟨a, ha, by rw [hab, hx]⟩)
      have hfil : xs.filter (fun a => f a != b) = xs :=
        List.filter_eq_self.mpr (fun a ha => by simpa using hall a ha)
      simp [List.filter_cons, hx, hfil]
    · simp only [List.findIdx?_cons, beq_iff_eq, hx, if_false, List.findIdx?_succ,
        zero_add, Option.map_eq_some'] at h
      obtain ⟨j, hj, rfl⟩ := h
      obtain ⟨h1, h2⟩ := eraseIdx_findIdx?_eq_filter f b xs j hnd.2 hj
      refine ⟨?_, ?_⟩
      · simp [List.filter_cons, hx, h1]
      · simp only [List.eraseIdx_cons_succ, List.length_cons]
        omega

theorem clearSortTasks_sortTaskIntoArray (s : Store) (task : Ref) :
    clearSortTasks (sortTaskIntoArray s task) = clearSortTasks s := by
  unfold sortTaskIntoArray
  split_ifs <;> rfl

theorem sortTaskIntoArray_fields (s : Store) (task : Ref) :
    (sortTaskIntoArray s task).allTasks = s.allTasks ∧
    (sortTaskIntoArray s task).heap = s.heap := by
  unfold sortTaskIntoArray
  split_ifs <;> exact ⟨rfl, rfl⟩

theorem sortTaskIntoArray_read (s : Store) (task : Ref) (L : ArrayRef) (r : Ref)
    (h : r ∈ (sortTaskIntoArray s task).read L) : r ∈ s.read L ∨ r = task := by
  unfold sortTaskIntoArray at h
  split_ifs at h <;> cases L <;> simp_all [Store.read]

theorem foldl_sortTaskIntoArray (l : List Ref) :
    ∀ s : Store,
      clearSortTasks (l.foldl sortTaskIntoArray s) = clearSortTasks s ∧
      (l.foldl sortTaskIntoArray s).allTasks = s.allTasks ∧
      (l.foldl sortTaskIntoArray s).heap = s.heap ∧
      ∀ (L : ArrayRef) (r : Ref), r ∈ (l.foldl sortTaskIntoArray s).read L →
        r ∈ s.read L ∨ r ∈ l := by
  induction l with
  | nil => intro s; simp
  | cons x xs ih =>
    intro s
    obtain ⟨h1, h2, h3, h4⟩ := ih (sortTaskIntoArray s x)
    simp only [List.foldl_cons]
    refine ⟨?_, ?_, ?_, ?_⟩
    · rw [h1, clearSortTasks_sortTaskIntoArray]
    · rw [h2, (sortTaskIntoArray_fields s x).1]
    · rw [h3, (sortTaskIntoArray_fields s x).2]
    · intro L r hr
      rcases h4 L r hr with h | h
      · rcases sortTaskIntoArray_read s x L r h with h | h
        · exact Or.inl h
        · exact Or.inr (by simp [h])
      · exact Or.inr (List.mem_cons_of_mem _ h)

/-- Re-deriving the container lists twice is re-deriving them once. -/
theorem rebuild_idem (s : Store) :
    sortTaskIntoArrays (clearSortTasks (sortTaskIntoArrays (clearSortTasks s)))
      = sortTaskIntoArrays (clearSortTasks s) := by
  unfold sortTaskIntoArrays
  have h := foldl_sortTaskIntoArray (clearSortTasks s).allTasks (clearSortTasks s)
  rw [h.1]
  rfl

theorem deleteTask_store_of_some (s : Store) (taskId : String) (i : Nat)
    (h : s.allTasks.findIdx? (fun task => (s.heap task).id == taskId) = some i) :
    (deleteTask s taskId).store
      = sortTaskIntoArrays (clearSortTasks { s with allTasks := s.allTasks.eraseIdx i }) := by
  unfold deleteTask
  simp only [h, saveTasks, saveTasksCategory]

theorem deleteTask_store_of_none (s : Store) (taskId : String)
    (h : s.allTasks.findIdx? (fun task => (s.heap task).id == taskId) = none) :
    (deleteTask s taskId).store = sortTaskIntoArrays (clearSortTasks s) := by
  unfold deleteTask
  simp only [h, saveTasks, saveTasksCategory]

theorem write_read_self (s : Store) (a : ArrayRef) : s.write a (s.read a) = s := by
  cases a <;> simp [Store.write, Store.read]

theorem write_write_same (s : Store) (a : ArrayRef) (l l' : List Ref) :
    (s.write a l).write a l' = s.write a l' := by
  cases a <;> simp [Store.write]

theorem setContainer_write (s : Store) (a : ArrayRef) (l : List Ref) (r : Ref) (k : String) :
    (s.write a l).setContainer r k = (s.setContainer r k).write a l := by
  cases a <;> rfl

theorem setContainer_self (s : Store) (r : Ref) (k : String)
    (h : (s.heap r).inWhichContainer = k) : s.setContainer r k = s := by
  have e : ({ s.heap r with inWhichContainer := k } : Task) = s.heap r := by
    rw [← h]
  simp [Store.setContainer, e]

theorem heap_write (s : Store) (a : ArrayRef) (l : List Ref) : (s.write a l).heap = s.heap := by
  cases a <;> rfl

theorem allTasks_write (s : Store) (a : ArrayRef) (l : List Ref) :
    (s.write a l).allTasks = s.allTasks := by
  cases a <;> rfl

theorem currentShowedTaskId_write (s : Store) (a : ArrayRef) (l : List Ref) :
    (s.write a l).currentShowedTaskId = s.currentShowedTaskId := by
  cases a <;> rfl

theorem set_currentShowedTaskId_self (s : Store) (v : Option String)
    (h : s.currentShowedTaskId = v) : { s with currentShowedTaskId := v } = s := by
  subst h
  rfl

theorem find?_eq_some_of_unique {α : Type} (p : α → Bool) (a : α) :
    ∀ l : List α, a ∈ l → p a = true → (∀ x ∈ l, p x = true → x = a) → l.find? p = some a
  | [], h, _, _ => by simp at h
  | x :: xs, h, hp, hu => by
    by_cases hx : p x = true
    · have e : x = a := hu x (List.mem_cons_self _ _) hx
      rw [List.find?_cons_of_pos _ hx, e]
    · have hne : a ≠ x := fun e => hx (e ▸ hp)
      have hmem : a ∈ xs := by
        rcases List.mem_cons.mp h with h | h
        · exact absurd h hne
        · exact h
      rw [List.find?_cons_of_neg _ hx]
      exact find?_eq_some_of_unique p a xs hmem hp
        (fun y hy => hu y (List.mem_cons_of_mem _ hy))

theorem findIdx?_eraseIdx_of_unique (p : Ref → Bool) (T : Ref) :
    ∀ l : List Ref, T ∈ l → p T = true → (∀ x ∈ l, p x = true → x = T) →
      ∃ i, l.findIdx? p = some i ∧ l[i]? = some T ∧ l.eraseIdx i = l.erase T
  | [], h, _, _ => by simp at h
  | x :: xs, h, hp, hu => by
    by_cases hx : p x = true
    · have e : x = T := hu x (List.mem_cons_self _ _) hx
      subst e
      exact ⟨0, by simp [List.findIdx?_cons, hx], by simp, by simp⟩
    · have hne : x ≠ T := fun e => hx (e ▸ hp)
      have hmem : T ∈ xs := by
        rcases List.mem_cons.mp h with h | h
        · exact absurd h.symm hne
        · exact h
      obtain ⟨i, hi, hget, her⟩ := findIdx?_eraseIdx_of_unique p T xs hmem hp
        (fun y hy => hu y (List.mem_cons_of_mem _ hy))
      refine ⟨i + 1, ?_, by simpa using hget, ?_⟩
      · simp [List.findIdx?_cons, hx, List.findIdx?_succ, hi]
      · rw [List.eraseIdx_cons_succ, her, List.erase_cons_tail (by simpa using hne)]

/-- One run of `moveTaskToCategory` when the shown task is in the source list and is the only
task of the source list with the shown id. -/
theorem moveTaskToCategory_run (s : Store) (tid : String) (T : Ref) (L C : ArrayRef)
    (hcur : s.currentShowedTaskId = some tid) (hid : (s.heap T).id = tid)
    (hL : T ∈ s.read L) (huniq : ∀ x ∈ s.read L, (s.heap x).id = tid → x = T) :
    moveTaskToCategory s (some L) (some C)
      = ⟨((s.write L ((s.read L).erase T)).setContainer T
            (determineContainerKey (some C))).write C
          (((s.write L ((s.read L).erase T)).setContainer T
            (determineContainerKey (some C))).read C ++ [T]), none⟩ := by
  obtain ⟨i, hi, hget, her⟩ := findIdx?_eraseIdx_of_unique
    (fun task => (s.heap task).id == tid) T (s.read L) hL (by simpa using hid)
    (fun x hx hpx => huniq x hx (by simpa using hpx))
  simp [moveTaskToCategory, hcur, hi, hget, her, showTasks, saveTasks, saveTasksCategory]

/-- A transfer to the list the task is already the last element of changes nothing. -/
theorem moveTaskToCategory_fixpoint (s : Store) (tid : String) (T : Ref) (C : ArrayRef)
    (l : List Ref) (hcur : s.currentShowedTaskId = some tid) (hid : (s.heap T).id = tid)
    (hread : s.read C = l ++ [T]) (hT : T ∉ l)
    (huniq : ∀ x ∈ s.read C, (s.heap x).id = tid → x = T)
    (hkey : (s.heap T).inWhichContainer = determineContainerKey (some C)) :
    moveTaskToCategory s (some C) (some C) = ⟨s, none⟩ := by
  have hmem : T ∈ s.read C := by rw [hread]; simp
  rw [moveTaskToCategory_run s tid T C C hcur hid hmem huniq]
  have herase : (s.read C).erase T = l := by
    rw [hread, List.erase_append_right _ hT]
    simp
  rw [herase, read_setContainer, read_write_same, setContainer_write, write_write_same,
    setContainer_self s T _ hkey, ← hread, write_read_self]

theorem find?_before_is_false {α : Type} (p : α → Bool) :
    ∀ (l : List α) (a : α), l.Nodup → l.find? p = some a →
      ∀ (i j : Nat) (b : α), l[j]? = some a → l[i]? = some b → i < j → p b = false
  | [], _, _, h => by simp at h
  | x :: xs, a, hnd, h => by
    intro i j b hj hi hij
    rw [List.nodup_cons] at hnd
    obtain ⟨j, rfl⟩ : ∃ k, j = k + 1 := ⟨j - 1, by omega⟩
    have hj2 : xs[j]? = some a := by simpa using hj
    have hax : a ∈ xs := List.getElem?_mem hj2
    have hpx : p x = false := by
      by_contra hpx
      have hpx2 : p x = true := by simpa using hpx
      rw [List.find?_cons_of_pos _ hpx2] at h
      have e : x = a := Option.some.inj h
      exact hnd.1 (e ▸ hax)
    cases i with
    | zero =>
      have e : x = b := by simpa using hi
      exact e ▸ hpx
    | succ i =>
      rw [List.find?_cons_of_neg _ (by simp [hpx])] at h
      exact find?_before_is_false p xs a hnd.2 h i j b hj2 (by simpa using hi) (by omega)

theorem categoryButtonTransfer_eq (s : Store) (taskId : String) (C : ArrayRef)
    (hC : C ∈ containerLists) :
    categoryButtonTransfer s taskId C
      = moveTaskToCategory { s with currentShowedTaskId := some taskId }
          (findTaskArray s taskId) (some C) := by
  simp only [containerLists, List.mem_cons, List.mem_singleton, List.not_mem_nil,
    or_false] at hC
  rcases hC with rfl | rfl | rfl | rfl <;>
    simp [categoryButtonTransfer, showTasksInOverview, handleMobileTaskCategoryClick,
      categoryClass]

theorem findTaskArray_eq_some (s : Store) (tid : String) (T : Ref) (L : ArrayRef)
    (hfind : s.allTasks.find? (fun t => (s.heap t).id == tid) = some T)
    (hL : L ∈ containerLists) (hTL : T ∈ s.read L)
    (hothers : ∀ A ∈ containerLists, A ≠ L → T ∉ s.read A) :
    findTaskArray s tid = some L := by
  have a1 := hothers ArrayRef.tasksToDo (by simp [containerLists])
  have a2 := hothers ArrayRef.tasksInProgress (by simp [containerLists])
  have a3 := hothers ArrayRef.tasksAwaitFeedback (by simp [containerLists])
  have a4 := hothers ArrayRef.tasksDone (by simp [containerLists])
  simp only [containerLists, List.mem_cons, List.mem_singleton, List.not_mem_nil,
    or_false] at hL
  rcases hL with rfl | rfl | rfl | rfl <;>
    simp_all [findTaskArray, Store.read]

theorem occurrences_one (s : Store) (T : Ref) (h : occurrences s T = 1) :
    ∃ L ∈ containerLists, (s.read L).count T = 1 ∧
      ∀ A ∈ containerLists, A ≠ L → (s.read A).count T = 0 := by
  unfold occurrences at h
  have hcases :
      (s.tasksToDo.count T = 1 ∧ s.tasksInProgress.count T = 0
        ∧ s.tasksAwaitFeedback.count T = 0 ∧ s.tasksDone.count T = 0) ∨
      (s.tasksToDo.count T = 0 ∧ s.tasksInProgress.count T = 1
        ∧ s.tasksAwaitFeedback.count T = 0 ∧ s.tasksDone.count T = 0) ∨
      (s.tasksToDo.count T = 0 ∧ s.tasksInProgress.count T = 0
        ∧ s.tasksAwaitFeedback.count T = 1 ∧ s.tasksDone.count T = 0) ∨
      (s.tasksToDo.count T = 0 ∧ s.tasksInProgress.count T = 0
        ∧ s.tasksAwaitFeedback.count T = 0 ∧ s.tasksDone.count T = 1) := by
    omega
  rcases hcases with ⟨h1, h2, h3, h4⟩ | ⟨h1, h2, h3, h4⟩ | ⟨h1, h2, h3, h4⟩ | ⟨h1, h2, h3, h4⟩
  · refine ⟨ArrayRef.tasksToDo, by simp [containerLists], h1, ?_⟩
    intro A hA hne
    simp only [containerLists, List.mem_cons, List.mem_singleton, List.not_mem_nil,
      or_false] at hA
    rcases hA with rfl | rfl | rfl | rfl <;> first | exact absurd rfl hne | assumption
  · refine ⟨ArrayRef.tasksInProgress, by simp [containerLists], h2, ?_⟩
    intro A hA hne
    simp only [containerLists, List.mem_cons, List.mem_singleton, List.not_mem_nil,
      or_false] at hA
    rcases hA with rfl | rfl | rfl | rfl <;> first | exact absurd rfl hne | assumption
  · refine ⟨ArrayRef.tasksAwaitFeedback, by simp [containerLists], h3, ?_⟩
    intro A hA hne
    simp only [containerLists, List.mem_cons, List.mem_singleton, List.not_mem_nil,
      or_false] at hA
    rcases hA with rfl | rfl | rfl | rfl <;> first | exact absurd rfl hne | assumption
  · refine ⟨ArrayRef.tasksDone, by simp [containerLists], h4, ?_⟩
    intro A hA hne
    simp only [containerLists, List.mem_cons, List.mem_singleton, List.not_mem_nil,
      or_false] at hA
    rcases hA with rfl | rfl | rfl | rfl <;> first | exact absurd rfl hne | assumption

theorem mem_storeRefs_of_read (s : Store) (A : ArrayRef) (hA : A ∈ containerLists) (x : Ref)
    (hx : x ∈ s.read A) : x ∈ storeRefs s := by
  simp only [containerLists, List.mem_cons, List.mem_singleton, List.not_mem_nil,
    or_false] at hA
  rcases hA with rfl | rfl | rfl | rfl <;> simp_all [storeRefs, Store.read]

/-- The store after one category-button transfer of a task that is in exactly one list. -/
theorem categoryButtonTransfer_once (s : Store) (T : Ref) (C : ArrayRef)
    (huniq : StoreUniqueIds s) (hT : T ∈ s.allTasks) (honce : occurrences s T = 1)
    (hC : C ∈ containerLists) :
    ∃ (s1 : Store) (l : List Ref),
      categoryButtonTransfer s (s.heap T).id C = ⟨s1, none⟩ ∧
      s1.read C = l ++ [T] ∧ T ∉ l ∧
      (∀ A ∈ containerLists, A ≠ C → T ∉ s1.read A) ∧
      (∀ x ∈ s1.read C, (s1.heap x).id = (s.heap T).id → x = T) ∧
      s1.allTasks = s.allTasks ∧
      (∀ x, (s1.heap x).id = (s.heap x).id) ∧
      (s1.heap T).inWhichContainer = determineContainerKey (some C) ∧
      s1.currentShowedTaskId = some (s.heap T).id := by
  obtain ⟨L, hLmem, hLc, hLo⟩ := occurrences_one s T honce
  have hTL : T ∈ s.read L := List.count_pos_iff.mp (by omega)
  have hTref : T ∈ storeRefs s := by simp [storeRefs, hT]
  have hfind : s.allTasks.find? (fun t => (s.heap t).id == (s.heap T).id) = some T :=
    find?_eq_some_of_unique _ _ _ hT (by simp)
      (fun x hx hp => huniq x (by simp [storeRefs, hx]) T hTref (by simpa using hp))
  have hsrc : findTaskArray s (s.heap T).id = some L :=
    findTaskArray_eq_some s _ T L hfind hLmem hTL
      (fun A hA hne => List.count_eq_zero.mp (hLo A hA hne))
  have hread0 : ∀ A, ({ s with currentShowedTaskId := some (s.heap T).id } : Store).read A
      = s.read A := by
    intro A; cases A <;> rfl
  have hrun := moveTaskToCategory_run { s with currentShowedTaskId := some (s.heap T).id }
    (s.heap T).id T L C rfl rfl (by rw [hread0]; exact hTL)
    (fun x hx hid => huniq x (mem_storeRefs_of_read s L hLmem x (by rw [← hread0]; exact hx))
      T hTref hid)
  rw [hread0] at hrun
  have hTer : T ∉ (s.read L).erase T := by
    rw [← List.count_eq_zero, List.count_erase_self, hLc]
  refine ⟨((({ s with currentShowedTaskId := some (s.heap T).id } : Store).write L
        ((s.read L).erase T)).setContainer T (determineContainerKey (some C))).write C
      (((({ s with currentShowedTaskId := some (s.heap T).id } : Store).write L
        ((s.read L).erase T)).setContainer T (determineContainerKey (some C))).read C ++ [T]),
    ((({ s with currentShowedTaskId := some (s.heap T).id } : Store).write L
        ((s.read L).erase T)).setContainer T (determineContainerKey (some C))).read C,
    ?_, ?_, ?_, ?_, ?_, ?_, ?_, ?_, ?_⟩
  · rw [categoryButtonTransfer_eq _ _ _ hC, hsrc]
    exact hrun
  · exact read_write_same _ _ _
  · rw [read_setContainer]
    by_cases hLC : C = L
    · subst hLC
      rw [read_write_same]
      exact hTer
    · rw [read_write_other _ _ _ _ hLC, hread0]
      exact List.count_eq_zero.mp (hLo C hC hLC)
  · intro A hA hne
    rw [read_write_other _ _ _ _ hne, read_setContainer]
    by_cases hAL : A = L
    · subst hAL
      rw [read_write_same]
      exact hTer
    · rw [read_write_other _ _ _ _ hAL, hread0]
      exact List.count_eq_zero.mp (hLo A hA hAL)
  · intro x hx hid
    rw [read_write_same, read_setContainer] at hx
    rcases List.mem_append.mp hx with hx | hx
    · have hxC : x ∈ s.read C := by
        by_cases hLC : C = L
        · subst hLC
          rw [read_write_same] at hx
          exact List.mem_of_mem_erase hx
        · rw [read_write_other _ _ _ _ hLC, hread0] at hx
          exact hx
      refine huniq x (mem_storeRefs_of_read s C hC x hxC) T hTref ?_
      rw [← hid]
      simp only [heap_write, Store.setContainer, Function.update]
      split <;> simp_all
    · simpa using hx
  · rw [allTasks_write, Store.setContainer, allTasks_write]
  · intro x
    simp only [heap_write, Store.setContainer, Function.update]
    split <;> simp_all
  · simp [heap_write, Store.setContainer]
  · rw [currentShowedTaskId_write]
    show (Store.write _ L _).currentShowedTaskId = _
    rw [currentShowedTaskId_write]

theorem splitOnP_head_eq_takeWhile {α : Type} (p : α → Bool) :
    ∀ l : List α, ∃ rest, l.splitOnP p = l.takeWhile (fun a => !p a) :: rest
  | [] => ⟨[], by simp [List.splitOnP_nil]⟩
  | x :: xs => by
    obtain ⟨rest, h⟩ := splitOnP_head_eq_takeWhile p xs
    by_cases hx : p x = true
    · exact ⟨xs.splitOnP p, by simp [List.splitOnP_cons, hx]⟩
    · exact ⟨rest, by simp [List.splitOnP_cons, hx, h]⟩

theorem onDropTaskId_taskElementId (taskId : String) :
    onDropTaskId (taskElementId taskId)
      = some (String.mk (taskId.data.takeWhile (fun c => c != '-'))) := by
  obtain ⟨rest, h⟩ := splitOnP_head_eq_takeWhile (fun c : Char => c == '-') taskId.data
  have hsplit : (taskElementId taskId).data.splitOn '-'
      = ['t', 'a', 's', 'k'] :: taskId.data.splitOnP (fun c => c == '-') := by
    have hdata : (taskElementId taskId).data = ['t', 'a', 's', 'k'] ++ '-' :: taskId.data := rfl
    rw [hdata, List.splitOn]
    exact List.splitOnP_first (fun c => c == '-') ['t', 'a', 's', 'k'] (by decide) '-'
      (by decide) taskId.data
  simp only [onDropTaskId, split, hsplit, h, List.map_cons, List.getElem?_cons_succ,
    List.getElem?_cons_zero]
  rfl

/-- When `subtasksId` is an array, of whatever length, the loop of
`applyLineThroughAndCheckbox` runs to its end without throwing. -/
theorem applyLineThroughLoop_of_some (ids : JSArray String) :
    ∀ (statuses : List Bool) (index : Nat) (doc : Document),
      (applyLineThroughLoop (some ids) statuses index doc).2 = none
  | [], _, _ => rfl
  | _ :: rest, index, doc => by
    simp only [applyLineThroughLoop]
    exact applyLineThroughLoop_of_some ids rest (index + 1) _

/-- The function `applyLineThroughAndCheckbox` writes to the document only: it returns the
store it was given. -/
theorem applyLineThroughAndCheckbox_store (s : Store) (doc : Document) (currentTaskId : String) :
    (applyLineThroughAndCheckbox s doc currentTaskId).store = s := by
  unfold applyLineThroughAndCheckbox
  split <;> rfl

/-- The store that `onDrop` leaves is the store of its `moveTaskToContainer` call, whose
rejection stays unhandled; `onDrop` itself rejects exactly when the container element is not
found in the document. -/
theorem onDrop_of_container (s : Store) (doc : Document) (targetContainer data : String)
    (target : Nat) :
    (onDrop s doc ⟨some targetContainer, data, target⟩).store
      = (moveTaskToContainer s (onDropTaskId data) (resolveList targetContainer)).store ∧
    (onDrop s doc ⟨some targetContainer, data, target⟩).unhandledRejection
      = (moveTaskToContainer s (onDropTaskId data) (resolveList targetContainer)).thrown ∧
    ((onDrop s doc ⟨some targetContainer, data, target⟩).thrown = none ↔
      (getElementById doc targetContainer).isSome) := by
  unfold onDrop resolveList
  cases h : getElementById doc targetContainer <;> simp [h]

/-! ## The claims -/

/-- C1 (divergence of the code): `board` has unique task ids and every task exactly once in
exactly one list, yet after `moveTaskToContainer("1", tasksDone)` task `"1"` is still in
`tasksToDo` besides being in `tasksDone`, and after `moveTaskToContainer("1", tasksToDo)`
(the list it was already in) it occurs twice in `tasksToDo`: the function appends to the target
and removes the task from no list. -/
theorem moveTaskToContainer_keeps_source_membership :
    UniqueIds board ∧ StoreUniqueIds board ∧ Partitioned board ∧
    (moveTaskToContainer board (some "1") (some ArrayRef.tasksDone)).store.tasksToDo = [0] ∧
    (moveTaskToContainer board (some "1") (some ArrayRef.tasksDone)).store.tasksDone = [1, 0] ∧
    occurrences (moveTaskToContainer board (some "1") (some ArrayRef.tasksDone)).store 0 = 2 ∧
    (moveTaskToContainer board (some "1") (some ArrayRef.tasksToDo)).store.tasksToDo
      = [0, 0] := by
  decide

/-- C2: in a store whose task ids are unique across the whole store, for a task `T` of
`allTasks` that occurs exactly once in exactly one of the four lists and a container list `C`,
the category-button transfer of `T` to `C` (source list resolved by `findTaskArray(T.id)`, move
done by `moveTaskToCategory` with `currentShowedTaskId = T.id`), performed twice in succession,
throws nothing, leaves `T` exactly once in `C` and in none of the other lists after the first
and after the second transfer, and the store after the second transfer equals the store after
the first. -/
theorem categoryButtonTransfer_twice_idempotent (s : Store) (T : Ref) (C : ArrayRef)
    (huniq : StoreUniqueIds s) (hT : T ∈ s.allTasks) (honce : occurrences s T = 1)
    (hC : C ∈ containerLists) :
    (categoryButtonTransfer s (s.heap T).id C).thrown = none ∧
    ((categoryButtonTransfer s (s.heap T).id C).store.read C).count T = 1 ∧
    (∀ A ∈ containerLists, A ≠ C →
      T ∉ (categoryButtonTransfer s (s.heap T).id C).store.read A) ∧
    (categoryButtonTransfer (categoryButtonTransfer s (s.heap T).id C).store
      (s.heap T).id C).thrown = none ∧
    ((categoryButtonTransfer (categoryButtonTransfer s (s.heap T).id C).store
      (s.heap T).id C).store.read C).count T = 1 ∧
    (∀ A ∈ containerLists, A ≠ C →
      T ∉ (categoryButtonTransfer (categoryButtonTransfer s (s.heap T).id C).store
        (s.heap T).id C).store.read A) ∧
    (categoryButtonTransfer (categoryButtonTransfer s (s.heap T).id C).store
      (s.heap T).id C).store = (categoryButtonTransfer s (s.heap T).id C).store := by
  obtain ⟨s1, l, h1, hread, hTl, hothers, hu1, hall, hids, hkey, hcur⟩ :=
    categoryButtonTransfer_once s T C huniq hT honce hC
  have hTref : T ∈ storeRefs s := by simp [storeRefs, hT]
  have hfind : s.allTasks.find? (fun t => (s.heap t).id == (s.heap T).id) = some T :=
    find?_eq_some_of_unique _ _ _ hT (by simp)
      (fun x hx hp => huniq x (by simp [storeRefs, hx]) T hTref (by simpa using hp))
  have hfind1 : s1.allTasks.find? (fun t => (s1.heap t).id == (s.heap T).id) = some T := by
    rw [hall]
    have e : (fun t => (s1.heap t).id == (s.heap T).id)
        = (fun t => (s.heap t).id == (s.heap T).id) := by
      funext t; rw [hids t]
    rw [e]
    exact hfind
  have hsrc1 : findTaskArray s1 (s.heap T).id = some C :=
    findTaskArray_eq_some s1 _ T C hfind1 hC (by rw [hread]; simp) hothers
  have h2 : categoryButtonTransfer s1 (s.heap T).id C = ⟨s1, none⟩ := by
    rw [categoryButtonTransfer_eq _ _ _ hC, hsrc1, set_currentShowedTaskId_self s1 _ hcur]
    exact moveTaskToCategory_fixpoint s1 (s.heap T).id T C l hcur (hids T) hread hTl hu1 hkey
  have hcount : (s1.read C).count T = 1 := by
    rw [hread, List.count_append, List.count_eq_zero.mpr hTl]
    simp
  rw [h1]
  dsimp only
  rw [h2]
  exact ⟨rfl, hcount, hothers, rfl, hcount, hothers, rfl⟩

theorem categoryButtonTransfer_twice_idempotent_witness :
    ((categoryButtonTransfer board (board.heap 0).id ArrayRef.tasksDone).store.read
        ArrayRef.tasksDone).count 0 = 1 ∧
    (categoryButtonTransfer (categoryButtonTransfer board (board.heap 0).id
        ArrayRef.tasksDone).store (board.heap 0).id ArrayRef.tasksDone).store
      = (categoryButtonTransfer board (board.heap 0).id ArrayRef.tasksDone).store :=
  ⟨(categoryButtonTransfer_twice_idempotent board 0 ArrayRef.tasksDone (by decide) (by decide)
      (by decide) (by decide)).2.1,
    (categoryButtonTransfer_twice_idempotent board 0 ArrayRef.tasksDone (by decide) (by decide)
      (by decide) (by decide)).2.2.2.2.2.2⟩

/-- C3 (divergence of the code): dropping task `"1"` of `board` on the unknown container
`bogus-container` resolves the target to `null`; `moveTaskToContainer` then overwrites the
task's `inWhichContainer` (`for-To-Do-Container` before) with the empty key and throws on
`null.push`. -/
theorem dropTransfer_unknown_target_stamps_and_throws :
    resolveList "bogus-container" = none ∧
    (board.heap 0).inWhichContainer = "for-To-Do-Container" ∧
    ((dropTransfer board (some "1") "bogus-container").store.heap 0).inWhichContainer = "" ∧
    (dropTransfer board (some "1") "bogus-container").thrown
      = some "TypeError: Cannot read properties of null (reading push)" := by
  decide

/-- C4 (divergence of the code): `clearAllTasks()` on `board` empties `allTasks` and leaves
the container lists as they were, `tasksToDo` still holding task `"1"` and `tasksDone` task
`"2"`. -/
theorem clearAllTasks_keeps_container_lists :
    (clearAllTasks board).store.allTasks = [] ∧
    (clearAllTasks board).store.tasksToDo = [0] ∧
    (clearAllTasks board).store.tasksInProgress = [] ∧
    (clearAllTasks board).store.tasksAwaitFeedback = [] ∧
    (clearAllTasks board).store.tasksDone = [1] := by
  decide

/-- C5: in a store whose `allTasks` has unique task ids, for an id that a task of `allTasks`
has, `deleteTask(id)` throws nothing and leaves an `allTasks` with no task of that id, exactly
one element shorter, equal to the old `allTasks` with the tasks of that id filtered out (so all
other tasks keep their relative order); no task object is changed; the container lists, which
`clearSortTasks` and `sortTaskIntoArrays` re-derive from this collection, hold no task of that
id either; and a second `deleteTask(id)` leaves `allTasks`, and the whole store, unchanged. -/
theorem deleteTask_removes_and_repeated_is_noop (s : Store) (taskId : String)
    (huniq : UniqueIds s) (hpresent : ∃ task ∈ s.allTasks, (s.heap task).id = taskId) :
    (deleteTask s taskId).thrown = none ∧
    (∀ task ∈ (deleteTask s taskId).store.allTasks,
      ((deleteTask s taskId).store.heap task).id ≠ taskId) ∧
    (deleteTask s taskId).store.allTasks.length + 1 = s.allTasks.length ∧
    (deleteTask s taskId).store.allTasks
      = s.allTasks.filter (fun task => (s.heap task).id != taskId) ∧
    (deleteTask s taskId).store.heap = s.heap ∧
    (∀ L ∈ containerLists, ∀ task ∈ (deleteTask s taskId).store.read L,
      ((deleteTask s taskId).store.heap task).id ≠ taskId) ∧
    (deleteTask (deleteTask s taskId).store taskId).store.allTasks
      = (deleteTask s taskId).store.allTasks ∧
    (deleteTask (deleteTask s taskId).store taskId).store = (deleteTask s taskId).store := by
  obtain ⟨t0, ht0, hid0⟩ := hpresent
  have hi := List.findIdx?_eq_some_of_exists
    (p := fun task => (s.heap task).id == taskId) ⟨t0, ht0, by simpa using hid0⟩
  generalize s.allTasks.findIdx (fun task => (s.heap task).id == taskId) = i at hi
  obtain ⟨hfil, hlen⟩ := eraseIdx_findIdx?_eq_filter (fun task => (s.heap task).id) taskId
    s.allTasks i huniq hi
  have hrun := deleteTask_store_of_some s taskId i hi
  have hf := foldl_sortTaskIntoArray (s.allTasks.eraseIdx i)
    (clearSortTasks { s with allTasks := s.allTasks.eraseIdx i })
  have hall : (deleteTask s taskId).store.allTasks = s.allTasks.eraseIdx i := by
    rw [hrun]; exact hf.2.1
  have hheap : (deleteTask s taskId).store.heap = s.heap := by
    rw [hrun]; exact hf.2.2.1
  have hgone : ∀ task ∈ s.allTasks.eraseIdx i, (s.heap task).id ≠ taskId := by
    intro task ht
    rw [hfil, List.mem_filter] at ht
    simpa using ht.2
  have hnone : (deleteTask s taskId).store.allTasks.findIdx?
      (fun task => ((deleteTask s taskId).store.heap task).id == taskId) = none := by
    rw [hall, hheap]
    exact findIdx?_none_of_forall _ _ (fun a ha => by simpa using hgone a ha)
  have hagain : (deleteTask (deleteTask s taskId).store taskId).store
      = (deleteTask s taskId).store := by
    rw [deleteTask_store_of_none _ _ hnone, hrun, rebuild_idem]
  refine ⟨rfl, ?_, ?_, ?_, hheap, ?_, ?_, hagain⟩
  · intro task ht
    rw [hheap]
    exact hgone task (hall ▸ ht)
  · rw [hall]; exact hlen
  · rw [hall]; exact hfil
  · intro L hL task ht
    rw [hheap]
    rw [hrun] at ht
    rcases hf.2.2.2 L task ht with h | h
    · simp only [containerLists, List.mem_cons, List.mem_singleton, List.not_mem_nil,
        or_false] at hL
      rcases hL with rfl | rfl | rfl | rfl <;> simp [Store.read, clearSortTasks] at h
    · exact hgone task h
  · rw [hagain]

theorem deleteTask_removes_and_repeated_is_noop_witness :
    (∀ task ∈ (deleteTask board "1").store.allTasks,
      ((deleteTask board "1").store.heap task).id ≠ "1") ∧
    (deleteTask (deleteTask board "1").store "1").store.allTasks
      = (deleteTask board "1").store.allTasks :=
  ⟨(deleteTask_removes_and_repeated_is_noop board "1" (by decide) ⟨0, by decide, rfl⟩).2.1,
    (deleteTask_removes_and_repeated_is_noop board "1" (by decide)
      ⟨0, by decide, rfl⟩).2.2.2.2.2.2.1⟩

/-- C6: a transfer whose task id is absent from the searched collection changes nothing.
`moveTaskToContainer` with an id that no task of `allTasks` has, for any target, and
`moveTaskToCategory` with `currentShowedTaskId` equal to an id that no task of the source list
has, for any new list, return the store they were given (`allTasks`, every task object and all
container lists) and throw nothing. -/
theorem transfer_task_not_found_no_mutation (s : Store) (taskId : String) :
    (∀ targetArray : Option ArrayRef,
      (∀ task ∈ s.allTasks, (s.heap task).id ≠ taskId) →
        moveTaskToContainer s (some taskId) targetArray = ⟨s, none⟩) ∧
    (∀ (source : ArrayRef) (newArray : Option ArrayRef),
      s.currentShowedTaskId = some taskId →
      (∀ task ∈ s.read source, (s.heap task).id ≠ taskId) →
        moveTaskToCategory s (some source) newArray = ⟨s, none⟩) := by
  constructor
  · intro targetArray h
    have hnone : s.allTasks.findIdx? (fun task => (s.heap task).id == taskId) = none :=
      findIdx?_none_of_forall _ _ (fun a ha => by simpa using h a ha)
    simp [moveTaskToContainer, hnone]
  · intro source newArray hcur h
    have hnone : (s.read source).findIdx? (fun task => (s.heap task).id == taskId) = none :=
      findIdx?_none_of_forall _ _ (fun a ha => by simpa using h a ha)
    cases newArray <;> simp [moveTaskToCategory, hcur, hnone]

theorem transfer_task_not_found_no_mutation_witness :
    moveTaskToContainer board (some "9") (some ArrayRef.tasksDone) = ⟨board, none⟩ ∧
    moveTaskToCategory { board with currentShowedTaskId := some "2" }
        (some ArrayRef.tasksToDo) (some ArrayRef.tasksDone)
      = ⟨{ board with currentShowedTaskId := some "2" }, none⟩ :=
  ⟨(transfer_task_not_found_no_mutation board "9").1 (some ArrayRef.tasksDone) (by decide),
    (transfer_task_not_found_no_mutation { board with currentShowedTaskId := some "2" } "2").2
      ArrayRef.tasksToDo (some ArrayRef.tasksDone) rfl (by decide)⟩

/-- C7: for a task id present in `allTasks`, with `task` the first task of `allTasks` that has
it, `moveTaskToContainer(taskId, target)` throws nothing, leaves the target list as its
previous contents followed by `task`, sets that task's `inWhichContainer` to
`determineContainerKey(target)` and changes no other field of it, changes no other task object,
no other array, and leaves `allTasks` as it was. -/
theorem moveTaskToContainer_stamps_and_appends (s : Store) (taskId : String)
    (target : ArrayRef) (task : Ref)
    (hfind : s.allTasks.find? (fun t => (s.heap t).id == taskId) = some task) :
    (moveTaskToContainer s (some taskId) (some target)).thrown = none ∧
    (moveTaskToContainer s (some taskId) (some target)).store.read target
      = s.read target ++ [task] ∧
    ((moveTaskToContainer s (some taskId) (some target)).store.heap task).inWhichContainer
      = determineContainerKey (some target) ∧
    (moveTaskToContainer s (some taskId) (some target)).store.heap task
      = { s.heap task with inWhichContainer := determineContainerKey (some target) } ∧
    (∀ other : Ref, other ≠ task →
      (moveTaskToContainer s (some taskId) (some target)).store.heap other = s.heap other) ∧
    (∀ a : ArrayRef, a ≠ target →
      (moveTaskToContainer s (some taskId) (some target)).store.read a = s.read a) ∧
    (moveTaskToContainer s (some taskId) (some target)).store.allTasks = s.allTasks ∧
    (moveTaskToContainer s (some taskId) (some target)).store.currentShowedTaskId
      = s.currentShowedTaskId := by
  obtain ⟨i, hi, hget⟩ := findIdx?_some_of_find? _ _ _ hfind
  have hrun : moveTaskToContainer s (some taskId) (some target)
      = ⟨(s.setContainer task (determineContainerKey (some target))).write target
          ((s.setContainer task (determineContainerKey (some target))).read target ++ [task]),
        none⟩ := by
    simp [moveTaskToContainer, hi, hget, showTasks, saveTasks, saveTasksCategory]
  rw [hrun]
  refine ⟨rfl, ?_, ?_, ?_, ?_, ?_, ?_, ?_⟩
  · rw [read_write_same, read_setContainer]
  · cases target <;> simp [Store.write, Store.setContainer]
  · cases target <;> simp [Store.write, Store.setContainer]
  · intro other hne
    cases target <;> simp [Store.write, Store.setContainer, Function.update, hne]
  · intro a hne
    rw [read_write_other _ _ _ _ hne, read_setContainer]
  · cases target <;> rfl
  · cases target <;> rfl

theorem moveTaskToContainer_stamps_and_appends_witness :
    (moveTaskToContainer board (some "1") (some ArrayRef.tasksDone)).store.read
        ArrayRef.tasksDone = board.read ArrayRef.tasksDone ++ [0] :=
  (moveTaskToContainer_stamps_and_appends board "1" ArrayRef.tasksDone 0 (by decide)).2.1

/-- C8: with the four global lists passed as arguments, `getTargetArrayFromContainerId` maps
the four known container ids to `tasksToDo`, `tasksInProgress`, `tasksAwaitFeedback`,
`tasksDone` and every other id to `null`; `determineContainerKey` of the resolved list is
`for-To-Do-Container`, `in-Progress-Container`, `for-Await-Feedback-Container`,
`for-Done-Container` respectively, four pairwise distinct non-empty keys, and the empty string
for `null`, for any array that is none of the four, and so for every unknown container id. -/
theorem container_classifier_round_trip :
    resolveList "target-to-do-table" = some ArrayRef.tasksToDo ∧
    resolveList "target-in-progress-table" = some ArrayRef.tasksInProgress ∧
    resolveList "target-await-feedback-table" = some ArrayRef.tasksAwaitFeedback ∧
    resolveList "target-done-table" = some ArrayRef.tasksDone ∧
    (∀ containerId : String,
      containerId ∉ ["target-to-do-table", "target-in-progress-table",
        "target-await-feedback-table", "target-done-table"] →
      resolveList containerId = none) ∧
    determineContainerKey (resolveList "target-to-do-table") = "for-To-Do-Container" ∧
    determineContainerKey (resolveList "target-in-progress-table") = "in-Progress-Container" ∧
    determineContainerKey (resolveList "target-await-feedback-table")
      = "for-Await-Feedback-Container" ∧
    determineContainerKey (resolveList "target-done-table") = "for-Done-Container" ∧
    ["for-To-Do-Container", "in-Progress-Container", "for-Await-Feedback-Container",
      "for-Done-Container"].Nodup ∧
    "" ∉ ["for-To-Do-Container", "in-Progress-Container", "for-Await-Feedback-Container",
      "for-Done-Container"] ∧
    determineContainerKey none = "" ∧
    (∀ n : Nat, determineContainerKey (some (ArrayRef.foreign n)) = "") ∧
    (∀ containerId : String,
      containerId ∉ ["target-to-do-table", "target-in-progress-table",
        "target-await-feedback-table", "target-done-table"] →
      determineContainerKey (resolveList containerId) = "") := by
  have hunknown : ∀ containerId : String,
      containerId ∉ ["target-to-do-table", "target-in-progress-table",
        "target-await-feedback-table", "target-done-table"] →
      resolveList containerId = none := by
    intro containerId h
    simp only [List.mem_cons, List.mem_singleton, List.not_mem_nil, or_false, not_or] at h
    simp [resolveList, getTargetArrayFromContainerId, h.1, h.2.1, h.2.2.1, h.2.2.2]
  refine ⟨by decide, by decide, by decide, by decide, hunknown, by decide, by decide,
    by decide, by decide, by decide, by decide, by decide, ?_, ?_⟩
  · intro n
    simp [determineContainerKey]
  · intro containerId h
    rw [hunknown containerId h]
    decide

theorem container_classifier_round_trip_witness :
    resolveList "bogus-container" = none ∧
    determineContainerKey (resolveList "bogus-container") = "" :=
  ⟨container_classifier_round_trip.2.2.2.2.1 "bogus-container" (by decide),
    container_classifier_round_trip.2.2.2.2.2.2.2.2.2.2.2.2.2 "bogus-container" (by decide)⟩

/-- C9: `findTaskArray(id)` returns the list that contains the task, or `null`. If it returns
a list, that list is one of the four container lists and contains the first task of `allTasks`
with that id; it returns `null` exactly when no task of `allTasks` has the id or the first such
task is in none of the four lists; and whenever the task is found, the result is the first list,
in the order `tasksToDo`, `tasksInProgress`, `tasksAwaitFeedback`, `tasksDone`, that contains
it. -/
theorem findTaskArray_returns_first_containing_list (s : Store) (taskId : String) :
    (∀ L : ArrayRef, findTaskArray s taskId = some L →
      L ∈ containerLists ∧
      ∃ task, s.allTasks.find? (fun t => (s.heap t).id == taskId) = some task ∧
        task ∈ s.read L) ∧
    (findTaskArray s taskId = none ↔
      (∀ t ∈ s.allTasks, (s.heap t).id ≠ taskId) ∨
      ∃ task, s.allTasks.find? (fun t => (s.heap t).id == taskId) = some task ∧
        ∀ L ∈ containerLists, task ∉ s.read L) ∧
    (∀ task, s.allTasks.find? (fun t => (s.heap t).id == taskId) = some task →
      findTaskArray s taskId = containerLists.find? (fun L => (s.read L).contains task)) ∧
    (∀ (task : Ref) (L : ArrayRef),
      s.allTasks.find? (fun t => (s.heap t).id == taskId) = some task →
      findTaskArray s taskId = some L →
      ∀ (i j : Nat) (L' : ArrayRef), containerLists[j]? = some L → containerLists[i]? = some L' →
        i < j → task ∉ s.read L') := by
  have hthird : ∀ task, s.allTasks.find? (fun t => (s.heap t).id == taskId) = some task →
      findTaskArray s taskId = containerLists.find? (fun L => (s.read L).contains task) := by
    intro task h
    by_cases h1 : task ∈ s.tasksToDo <;> by_cases h2 : task ∈ s.tasksInProgress
      <;> by_cases h3 : task ∈ s.tasksAwaitFeedback
      <;> by_cases h4 : task ∈ s.tasksDone
      <;> simp [findTaskArray, h, containerLists, List.find?_cons, Store.read, h1, h2, h3, h4]
  cases hfind : s.allTasks.find? (fun t => (s.heap t).id == taskId) with
  | none =>
    have hnone : findTaskArray s taskId = none := by simp [findTaskArray, hfind]
    have hall : ∀ t ∈ s.allTasks, (s.heap t).id ≠ taskId := by
      intro t ht
      have := List.find?_eq_none.mp hfind t ht
      simpa using this
    refine ⟨?_, ?_, ?_, ?_⟩
    · intro L hL; rw [hnone] at hL; cases hL
    · rw [hnone]
      exact ⟨fun _ => Or.inl hall, fun _ => rfl⟩
    · intro task h; cases h
    · intro task L h; cases h
  | some task =>
    have hres := hthird task hfind
    refine ⟨?_, ?_, ?_, ?_⟩
    · intro L hL
      rw [hres] at hL
      refine ⟨List.mem_of_find?_eq_some hL, task, rfl, ?_⟩
      have := List.find?_some hL
      simpa using this
    · rw [hres, List.find?_eq_none]
      constructor
      · intro h
        exact Or.inr ⟨task, rfl, fun L hL => by simpa using h L hL⟩
      · rintro (h | ⟨task', ht', h⟩)
        · exfalso
          have hmem := List.mem_of_find?_eq_some hfind
          have hp := List.find?_some hfind
          exact h task hmem (by simpa using hp)
        · cases ht'
          intro L hL
          simpa using h L hL
    · intro task' h
      cases h
      exact hres
    · intro task' L h hL i j L' hj hi hij hmem
      have e : task = task' := Option.some.inj h
      subst e
      rw [hres] at hL
      have hp := find?_before_is_false (fun L => (s.read L).contains task) containerLists L
        (by decide) hL i j L' hj hi hij
      simp [hmem] at hp

theorem findTaskArray_returns_first_containing_list_witness :
    findTaskArray board "2" = some ArrayRef.tasksDone ∧
    ArrayRef.tasksDone ∈ containerLists ∧
    ∃ task, board.allTasks.find? (fun t => (board.heap t).id == "2") = some task ∧
      task ∈ board.read ArrayRef.tasksDone :=
  ⟨by decide,
    (findTaskArray_returns_first_containing_list board "2").1 ArrayRef.tasksDone (by decide)⟩

/-- C10 (divergence of the code): task `"1"` of `board` has `subtasksStatus = [true]`, yet the
list item that `createSubTasksHTML(task.subtasks, task.subtasksId)` emits for its subtask has
the empty class, not `lineThrough`: the status is read as `taskSubtasksId[index]`, an index
property of the task object found by `allTasks.find`, which is `undefined`, instead of
`subtasksStatus[index]`. -/
theorem createSubTasksHTML_ignores_subtasksStatus :
    (board.heap 0).id = "1" ∧
    (board.heap 0).subtasksStatus = some [true] ∧
    createSubTasksItems board (board.heap 0).subtasks (board.heap 0).subtasksId
      = [{ liId := "s1", divClass := "", text := "a" }] ∧
    displayTaskOverview board "1"
      = Except.ok ("<ul class=\"edit-subTask\"><li id=\"s1\" class=\"subTaskAlignment\">"
          ++ "<div class=\"\">a</div></li></ul>") :=
  ⟨by decide, by decide, by decide, rfl⟩

/-- C11 (divergence of the code): task `"3"` of `boardMissingSubtasksId` has
`subtasksStatus = [true]` and no `subtasksId`; `applyLineThroughAndCheckbox("3")` throws a
`TypeError` at the first index, on reading `task.subtasksId[index]`, instead of skipping the
index. The status array is guarded (`task.subtasksStatus || []`) and so is the element
(`subtaskElement?.`), the id array is not. -/
theorem applyLineThroughAndCheckbox_throws_without_subtasksId :
    boardMissingSubtasksId.allTasks = [0] ∧
    (boardMissingSubtasksId.heap 0).id = "3" ∧
    (boardMissingSubtasksId.heap 0).subtasksId = none ∧
    (boardMissingSubtasksId.heap 0).subtasksStatus = some [true] ∧
    (applyLineThroughAndCheckbox boardMissingSubtasksId subtaskDocument "3").thrown
      = some "TypeError: Cannot read properties of undefined (reading index)" ∧
    (applyLineThroughAndCheckbox boardMissingSubtasksId subtaskDocument "3").document
      = subtaskDocument := by
  decide

/-- C12: for every task id, the id that `onDrop` derives from the dragged element id
`'task-' + taskId` by `split('-')[1]` is the part of the task id before its first `-`, and it
equals the task id exactly when the task id contains no `-`. With `task` the task of
`allTasks` that has the dragged id, the lookup of `moveTaskToContainer` by the derived id finds
`task` exactly when the id contains no `-`, and so does its effect: the call appends `task` to
the target list exactly when the id contains no `-`; then it also stamps `task`, and with a `-`
in the id it leaves the dragged task object as it was. -/
theorem onDrop_task_id_is_part_before_first_dash (taskId : String) :
    onDropTaskId (taskElementId taskId)
      = some (String.mk (taskId.data.takeWhile (fun c => c != '-'))) ∧
    (onDropTaskId (taskElementId taskId) = some taskId ↔ '-' ∉ taskId.data) ∧
    (∀ (s : Store) (task : Ref) (target : ArrayRef),
      s.allTasks.find? (fun t => (s.heap t).id == taskId) = some task →
      (s.allTasks.find? (fun t => some (s.heap t).id == onDropTaskId (taskElementId taskId))
          = some task ↔ '-' ∉ taskId.data) ∧
      ((moveTaskToContainer s (onDropTaskId (taskElementId taskId)) (some target)).store.read
          target = s.read target ++ [task] ↔ '-' ∉ taskId.data) ∧
      ('-' ∉ taskId.data →
        (moveTaskToContainer s (onDropTaskId (taskElementId taskId)) (some target)).store.heap
            task
          = { s.heap task with inWhichContainer := determineContainerKey (some target) }) ∧
      ('-' ∈ taskId.data →
        (moveTaskToContainer s (onDropTaskId (taskElementId taskId)) (some target)).store.heap
            task
          = s.heap task)) := by
  have hiff : onDropTaskId (taskElementId taskId) = some taskId ↔ '-' ∉ taskId.data := by
    rw [onDropTaskId_taskElementId]
    constructor
    · intro h hmem
      have hd : taskId.data.takeWhile (fun c => c != '-') = taskId.data :=
        congrArg String.data (Option.some.inj h)
      have := List.takeWhile_eq_self_iff.mp hd '-' hmem
      simp at this
    · intro h
      have hd : taskId.data.takeWhile (fun c => c != '-') = taskId.data :=
        List.takeWhile_eq_self_iff.mpr (fun x hx => by
          have : x ≠ '-' := fun e => h (e ▸ hx)
          simpa using this)
      rw [hd]
  refine ⟨onDropTaskId_taskElementId taskId, hiff, ?_⟩
  intro s task target hfind
  have hid : (s.heap task).id = taskId := by
    have := List.find?_some hfind
    simpa using this
  -- the id that the call is given
  obtain ⟨derived, hder⟩ : ∃ d, onDropTaskId (taskElementId taskId) = some d :=
    ⟨_, onDropTaskId_taskElementId taskId⟩
  have hne : '-' ∈ taskId.data → derived ≠ taskId := by
    intro hmem e
    exact (hiff.mp (by rw [hder, e])) hmem
  have heq : '-' ∉ taskId.data → derived = taskId := by
    intro h
    exact Option.some.inj (hder.symm.trans (hiff.mpr h))
  have hrun : ∀ (tid : String) (found : Ref),
      s.allTasks.find? (fun t => (s.heap t).id == tid) = some found →
      moveTaskToContainer s (some tid) (some target)
        = ⟨(s.setContainer found (determineContainerKey (some target))).write target
            ((s.setContainer found (determineContainerKey (some target))).read target
              ++ [found]), none⟩ := by
    intro tid found hf
    obtain ⟨i, hi, hget⟩ := findIdx?_some_of_find? _ _ _ hf
    simp [moveTaskToContainer, hi, hget, showTasks, saveTasks, saveTasksCategory]
  have hrunNone : ∀ tid : String,
      s.allTasks.find? (fun t => (s.heap t).id == tid) = none →
      moveTaskToContainer s (some tid) (some target) = ⟨s, none⟩ := by
    intro tid hf
    have hnone : s.allTasks.findIdx? (fun t => (s.heap t).id == tid) = none :=
      findIdx?_none_of_forall _ _ (fun a ha => by
        have := List.find?_eq_none.mp hf a ha
        simpa using this)
    simp [moveTaskToContainer, hnone]
  rw [hder]
  refine ⟨?_, ?_, ?_, ?_⟩
  · constructor
    · intro h
      by_contra hmem
      have hmem2 : '-' ∈ taskId.data := by simpa using hmem
      have := List.find?_some h
      have hd : (s.heap task).id = derived := by simpa using this
      exact hne hmem2 (hd.symm.trans hid)
    · intro h
      rw [heq h]
      simpa using hfind
  · constructor
    · intro h
      by_contra hmem
      have hmem2 : '-' ∈ taskId.data := by simpa using hmem
      cases hf : s.allTasks.find? (fun t => (s.heap t).id == derived) with
      | none =>
        rw [hrunNone derived hf] at h
        have := congrArg List.length h
        simp at this
      | some other =>
        rw [hrun derived other hf, read_write_same,
          read_setContainer] at h
        have e : other = task := by simpa using h
        have := List.find?_some hf
        have hd : (s.heap other).id = derived := by simpa using this
        rw [e] at hd
        exact hne hmem2 (hd.symm.trans hid)
    · intro h
      rw [heq h, hrun taskId task hfind, read_write_same,
        read_setContainer]
  · intro h
    rw [heq h, hrun taskId task hfind, heap_write]
    simp [Store.setContainer]
  · intro hmem
    cases hf : s.allTasks.find? (fun t => (s.heap t).id == derived) with
    | none => rw [hrunNone derived hf]
    | some other =>
      have := List.find?_some hf
      have hd : (s.heap other).id = derived := by simpa using this
      have hot : task ≠ other := by
        intro e
        rw [← e] at hd
        exact hne hmem (hd.symm.trans hid)
      rw [hrun derived other hf, heap_write]
      simp [Store.setContainer, Function.update, hot]

theorem onDrop_task_id_is_part_before_first_dash_witness :
    ((moveTaskToContainer dashBoard (onDropTaskId (taskElementId "a-b"))
        (some ArrayRef.tasksDone)).store.read ArrayRef.tasksDone
          = dashBoard.read ArrayRef.tasksDone ++ [1] ↔ '-' ∉ "a-b".data) ∧
    ((moveTaskToContainer board (onDropTaskId (taskElementId "1"))
        (some ArrayRef.tasksDone)).store.read ArrayRef.tasksDone
          = board.read ArrayRef.tasksDone ++ [0] ↔ '-' ∉ "1".data) :=
  ⟨((onDrop_task_id_is_part_before_first_dash "a-b").2.2 dashBoard 1 ArrayRef.tasksDone
      (by decide)).2.1,
    ((onDrop_task_id_is_part_before_first_dash "1").2.2 board 0 ArrayRef.tasksDone
      (by decide)).2.1⟩

end Kanban
